import Mathlib

/-!
Verification of the generic ingestion pipeline of the apply-srbiau
crawler system: the payload dictionaries and the "wise patch" merge
(src/crawlers/db.py, src/crawlers/daad_ingestor/cli.py), the fuzzy
deduplicating upsert (src/crawlers/db.py), the crawl loop and the DAAD
transformer (src/crawlers/base/crawler.py,
src/crawlers/daad_ingestor/daad_crawler.py), the batching ingestion
engine (src/crawlers/base/engine.py), the checkpoint state store
(src/crawlers/daad_ingestor/state.py) and the paging loop of the DAAD
command line ingestor (src/crawlers/daad_ingestor/cli.py).

Python dictionaries are embedded as association lists of string keys and
`Value`s; Python string operations are embedded as total functions on
`String` working over the character list, so every definition computes.
External libraries (rapidfuzz's similarity ratio, the `re` regex
primitives) are parameters of the definitions that call them.
-/

namespace ApplySrbiau

/-- A loosely-typed value of the payload dictionaries moved through the
pipeline: JSON-ish scalars, lists, nested dictionaries, plus an opaque
timestamp (Python `datetime` objects carried in payloads). -/
inductive Value where
  | vNone : Value
  | vStr : String → Value
  | vInt : Int → Value
  | vBool : Bool → Value
  | vTime : Nat → Value
  | vList : List Value → Value
  | vDict : List (String × Value) → Value
deriving Repr

/-- A Python dict with string keys, embedded as an association list whose
keys are unique in the states the code builds. -/
abbrev Dict := List (String × Value)

/-- First-match association-list lookup: Python `d.get(k)` (None for a
missing key is represented by `none`). -/
def alookup {α : Type} : List (String × α) → String → Option α
  | [], _ => none
  | (k, v) :: rest, key => if k = key then some v else alookup rest key

/-- Python `d[k] = v` on an association list: replace the binding if the
key is present, append it otherwise. -/
def aset {α : Type} : List (String × α) → String → α → List (String × α)
  | [], key, v => [(key, v)]
  | (k, w) :: rest, key, v =>
    if k = key then (k, v) :: rest else (k, w) :: aset rest key v

/-- Python `s.strip()`: drop leading and trailing whitespace. -/
def pyStrip (s : String) : String :=
  String.mk (((s.toList.dropWhile Char.isWhitespace).reverse.dropWhile
    Char.isWhitespace).reverse)

/-- Python `len(s)` (code points). -/
def pyLen (s : String) : Nat := s.toList.length

/-- Python `s[:n]`. -/
def pyTake (s : String) (n : Nat) : String := String.mk (s.toList.take n)

/-- Python `s.lower()`. -/
def pyLower (s : String) : String := String.mk (s.toList.map Char.toLower)

/-- Python `s.upper()`. -/
def pyUpper (s : String) : String := String.mk (s.toList.map Char.toUpper)

/-- Helper of `collapseWs`: the flag records whether the previous
character was whitespace (so a run collapses to one space). -/
def collapseWsAux : List Char → Bool → List Char
  | [], _ => []
  | c :: rest, prevWs =>
    if c.isWhitespace then
      (if prevWs then [] else [' ']) ++ collapseWsAux rest true
    else c :: collapseWsAux rest false

/-- Python `re.sub(r"\s+", " ", s)`: collapse every whitespace run to a
single space. -/
def collapseWs (s : String) : String := String.mk (collapseWsAux s.toList false)

/-- `_norm` of src/crawlers/db.py: strip, lowercase, collapse whitespace
(the `s or ""` None-guard is the `Option.getD` at call sites). -/
def normStr (s : String) : String := collapseWs (pyLower (pyStrip s))

/-- Python truthiness of a `Value` (`bool(v)`). -/
def pyTruthy : Value → Bool
  | .vNone => false
  | .vStr s => s ≠ ""
  | .vInt n => n ≠ 0
  | .vBool b => b
  | .vTime _ => true
  | .vList l => ¬ l.isEmpty
  | .vDict d => ¬ d.isEmpty

/-- Python `str(v)` for the scalar values the crawlers actually put in
payloads (container reprs are not reproduced; no claim depends on them). -/
def pyStrOfValue : Value → String
  | .vStr s => s
  | .vInt n => toString n
  | .vBool b => if b then "True" else "False"
  | .vNone => "None"
  | .vTime n => toString n
  | .vList _ => "[...]"
  | .vDict _ => "(dict)"

/-- The membership test `old in (None, "", [], {})` of `_wise_patch` /
`merge_patch` (Python `==` on those four literals). -/
def isEmptyValue : Value → Bool
  | .vNone => true
  | .vStr s => s = ""
  | .vList l => l.isEmpty
  | .vDict d => d.isEmpty
  | _ => false

/-- The same test applied to `existing.get(k)`: a missing key reads as
None, which counts as empty. -/
def isEmptyOpt : Option Value → Bool
  | none => true
  | some v => isEmptyValue v

/-- Whether a `Value` is Python's None (`v is None`). -/
def Value.isNoneV : Value → Bool
  | .vNone => true
  | _ => false

/-- The refreshable allow-list of `_wise_patch` (db.py) and `merge_patch`
(cli.py): free-text notes and externally linked URLs. -/
def refreshFields : List String :=
  ["notes", "deadline_notes", "program_url", "application_url"]

/-- The string-refresh test shared by both merge implementations:
`isinstance(v, str) and isinstance(old, str) and v.strip() != old.strip()`
where `old` is `existing.get(k)`. -/
def refreshOk (old : Option Value) (v : Value) : Bool :=
  match v, old with
  | .vStr s, some (.vStr t) => pyStrip s ≠ pyStrip t
  | _, _ => false

/-- Loop body of `PgStore._wise_patch` (src/crawlers/db.py lines 302-318):
skip None values; fill a field whose existing value is empty; refresh one
of the allow-listed text fields when the stripped strings differ. -/
def wisePatchStep (existing : Dict) (patch : Dict) (kv : String × Value) : Dict :=
  if kv.2.isNoneV then patch
  else
    let old := alookup existing kv.1
    let patch1 := if isEmptyOpt old then aset patch kv.1 kv.2 else patch
    if kv.1 ∈ refreshFields ∧ refreshOk old kv.2 then aset patch1 kv.1 kv.2
    else patch1

/-- `PgStore._wise_patch` (src/crawlers/db.py): the conservative merge
patch computed from an existing row and an incoming payload. -/
def wisePatch (existing newPayload : Dict) : Dict :=
  newPayload.foldl (wisePatchStep existing) []

/-- Loop body of `merge_patch` (src/crawlers/daad_ingestor/cli.py lines
71-81): same policy written with an elif chain. -/
def mergePatchStep (existing : Dict) (patch : Dict) (kv : String × Value) : Dict :=
  if kv.2.isNoneV then patch
  else
    let old := alookup existing kv.1
    if isEmptyOpt old then aset patch kv.1 kv.2
    else if refreshOk old kv.2 ∧ kv.1 ∈ refreshFields then aset patch kv.1 kv.2
    else patch

/-- `merge_patch` of the DAAD command line ingestor
(src/crawlers/daad_ingestor/cli.py). -/
def mergePatch (existing newPayload : Dict) : Dict :=
  newPayload.foldl (mergePatchStep existing) []

/-- Applying an update patch to a row: each patched column is assigned
its new value (the SET list of `_update_by_id`). -/
def applyPatch (row patch : Dict) : Dict :=
  patch.foldl (fun r kv => aset r kv.1 kv.2) row

/-- `PgStore._filter` (src/crawlers/db.py): keep only the keys that are
known columns of the table (`allowed` is `self.cols[table]`). -/
def filterCols (allowed : List String) (payload : Dict) : Dict :=
  payload.filter (fun kv => kv.1 ∈ allowed)

/-- The string cut of `PgStore._truncate` for one over-length value with
column limit `ml`: `v[:ml]` when `ml <= 3`, else `v[:ml-3] + "..."`. -/
def truncateStr (ml : Nat) (s : String) : String :=
  if ml ≤ 3 then pyTake s ml else pyTake s (ml - 3) ++ "..."

/-- Loop body of `PgStore._truncate`: a string value is cut when its
column has a positive character limit that it exceeds; every other value
passes through unchanged. `limits` is `self.maxlen[table]`. -/
def truncEntry (limits : String → Option Nat) (kv : String × Value) : String × Value :=
  match kv.2 with
  | .vStr s =>
    match limits kv.1 with
    | some ml => if 0 < ml ∧ ml < pyLen s then (kv.1, .vStr (truncateStr ml s)) else kv
    | none => kv
  | _ => kv

/-- `PgStore._truncate` (src/crawlers/db.py lines 156-178). -/
def truncatePayload (limits : String → Option Nat) (payload : Dict) : Dict :=
  payload.map (truncEntry limits)

/-- `PgStore._add_timestamps` (src/crawlers/db.py): set `updated_at`
whenever the column exists; on insert also set `created_at` when absent.
`now` stands for `_now_utc()`. -/
def addTimestamps (allowed : List String) (forUpdate : Bool) (now : Value) (p : Dict) : Dict :=
  let p1 := if "updated_at" ∈ allowed then aset p "updated_at" now else p
  if "created_at" ∈ allowed ∧ ¬ forUpdate ∧ (alookup p1 "created_at").isNone then
    aset p1 "created_at" now
  else p1

/-- The payload preparation pipeline shared by `_insert_returning_id`
(`forUpdate = false`) and `_update_by_id` (`forUpdate = true`): filter to
known columns, add timestamps, truncate over-length strings. -/
def preparePayload (allowed : List String) (limits : String → Option Nat)
    (forUpdate : Bool) (now : Value) (payload : Dict) : Dict :=
  truncatePayload limits (addTimestamps allowed forUpdate now (filterCols allowed payload))

/-- `c.get(key, "")` as fed to `_norm` by `best_fuzzy_match`: the stored
name, or the empty string when missing (names in rows are strings). -/
def getStr (d : Dict) (key : String) : String :=
  match alookup d key with
  | some (.vStr s) => s
  | _ => ""

/-- The similarity score `fuzz.ratio(_norm(needle), _norm(c.get(key, "")))`
that `best_fuzzy_match` computes for one candidate; `ratioFn` abstracts
the external rapidfuzz ratio. -/
def candScore (ratioFn : String → String → Nat) (needle key : String) (c : Dict) : Nat :=
  ratioFn (normStr needle) (normStr (getStr c key))

/-- Loop body of `best_fuzzy_match`: keep the candidate whenever its
score strictly beats the best so far and reaches `min_score`. -/
def bfmStep (ratioFn : String → String → Nat) (needle key : String) (minScore : Nat)
    (best : Option Dict × Nat) (c : Dict) : Option Dict × Nat :=
  let score := candScore ratioFn needle key c
  if best.2 < score ∧ minScore ≤ score then (some c, score) else best

/-- `best_fuzzy_match` (src/crawlers/db.py lines 35-67), rapidfuzz
present. (When rapidfuzz is missing the code falls back to exact
normalized match; that fallback is not modelled.) -/
def bestFuzzyMatch (ratioFn : String → String → Nat) (needle : String)
    (candidates : List Dict) (key : String) (minScore : Nat) : Option Dict :=
  (candidates.foldl (bfmStep ratioFn needle key minScore) ((none : Option Dict), 0)).1

/-- `payload.get("name") or dflt`: Python falsiness makes both a missing
key and the empty string fall back to the default. -/
def getNameOr (payload : Dict) (dflt : String) : String :=
  match alookup payload "name" with
  | some (.vStr s) => if s = "" then dflt else s
  | _ => dflt

/-- `int(row["id"])` for a stored row. -/
def getIdInt (d : Dict) : Int :=
  match alookup d "id" with
  | some (.vInt n) => n
  | _ => 0

/-- The match-or-insert outcome of an upsert: update an existing row
(by id, with a wise patch) or insert the incoming payload as a new row. -/
inductive UpsertDecision where
  | matched : Int → Dict → UpsertDecision
  | inserted : Dict → UpsertDecision

/-- The match/insert decision of `PgStore.upsert_university`
(src/crawlers/db.py lines 322-354). `candidates` stands for the rows
returned by `_search_universities` (the indexed country/name narrowing
runs in SQL); a fuzzy hit is patched wisely, otherwise the payload is
inserted. -/
def upsertUniversityDecision (ratioFn : String → String → Nat)
    (candidates : List Dict) (payload : Dict) (minScore : Nat := 90) : UpsertDecision :=
  let name := getNameOr payload "Unknown"
  match bestFuzzyMatch ratioFn name candidates "name" minScore with
  | some best => .matched (getIdInt best) (wisePatch best payload)
  | none => .inserted payload

/-- Case-sensitive substring test, Python `pat in s`. -/
def containsSub (hay pat : String) : Bool := decide (pat.toList <:+: hay.toList)

/-- `re.search(r"daad_course_id=(\d+)", notes)`: the digits directly
after the first occurrence of the tag that is followed by at least one
digit. -/
def findDaadTag (notes : String) : Option String :=
  match notes.splitOn "daad_course_id=" with
  | [] => none
  | _ :: parts =>
    (parts.map (fun p => String.mk (p.toList.takeWhile Char.isDigit))).find?
      (fun ds => ds ≠ "")

/-- The SQL `notes ILIKE '%' || tag || '%'` filter (case-insensitive
containment). -/
def notesHasTag (row : Dict) (tag : String) : Bool :=
  containsSub (pyLower (getStr row "notes")) (pyLower tag)

/-- The match/insert decision of `PgStore.upsert_course`
(src/crawlers/db.py lines 356-411): exact source-id tag match in `notes`
first (guarded by the `notes` column existing), then fuzzy name match at
the higher child threshold, else insert. `table` stands for the stored
`courses` rows scanned by the tag query (first hit, `LIMIT 1`) and
`candidates` for the `_search_courses` narrowing. -/
def upsertCourseDecision (ratioFn : String → String → Nat)
    (notesColExists : Bool) (table candidates : List Dict) (payload : Dict)
    (minScore : Nat := 92) : UpsertDecision :=
  let name := getNameOr payload "Unknown"
  let notes := getStr payload "notes"
  let tagRow : Option Dict :=
    match findDaadTag notes with
    | some tid =>
      if notesColExists then
        table.find? (fun row => notesHasTag row ("daad_course_id=" ++ tid))
      else none
    | none => none
  match tagRow with
  | some row => .matched (getIdInt row) (wisePatch row payload)
  | none =>
    match bestFuzzyMatch ratioFn name candidates "name" minScore with
    | some best => .matched (getIdInt best) (wisePatch best payload)
    | none => .inserted payload

/-- `CrawlStatus` (src/crawlers/base/crawler.py). -/
inductive CrawlStatus where
  | SUCCESS : CrawlStatus
  | PARTIAL : CrawlStatus
  | FAILED : CrawlStatus
  | SKIPPED : CrawlStatus
deriving Repr, DecidableEq

/-- The string `.value` of a `CrawlStatus` (it is a `str` Enum). -/
def CrawlStatus.value : CrawlStatus → String
  | .SUCCESS => "success"
  | .PARTIAL => "partial"
  | .FAILED => "failed"
  | .SKIPPED => "skipped"

/-- `CrawlError` (src/crawlers/base/crawler.py). The wall-clock
`timestamp` field is not modelled. -/
structure CrawlError where
  sourceId : String
  errorType : String
  message : String
  rawData : Option Dict := none
deriving Repr

/-- `CrawlResult` (src/crawlers/base/crawler.py). -/
structure CrawlResult where
  sourceId : String
  status : CrawlStatus
  universityPayload : Option Dict := none
  coursePayload : Option Dict := none
  error : Option CrawlError := none
  warnings : List String := []
deriving Repr

/-- `CrawlResult.is_success`: SUCCESS or PARTIAL. -/
def CrawlResult.isSuccess (r : CrawlResult) : Bool :=
  r.status = CrawlStatus.SUCCESS ∨ r.status = CrawlStatus.PARTIAL

/-- The result invariant of the spec: FAILED carries an error, and a
successful (SUCCESS or PARTIAL) result carries both payloads. -/
def resultInvariant (r : CrawlResult) : Prop :=
  (r.status = CrawlStatus.FAILED → r.error.isSome = true) ∧
  ((r.status = CrawlStatus.SUCCESS ∨ r.status = CrawlStatus.PARTIAL) →
    r.universityPayload.isSome = true ∧ r.coursePayload.isSome = true)

/-- `CrawlStats` counters (src/crawlers/base/crawler.py); the timestamp
fields and the error list do not enter the claims and are omitted. -/
structure CrawlStats where
  sourceName : String
  totalFetched : Nat := 0
  totalProcessed : Nat := 0
  totalSuccess : Nat := 0
  totalPartial : Nat := 0
  totalFailed : Nat := 0
  totalSkipped : Nat := 0
deriving Repr, DecidableEq

/-- `CrawlStats.success_rate` (src/crawlers/base/crawler.py lines
97-101): percentage of SUCCESS and PARTIAL among processed, 0.0 when
nothing was processed. -/
def successRate (s : CrawlStats) : ℚ :=
  if s.totalProcessed = 0 then 0
  else ((s.totalSuccess : ℚ) + (s.totalPartial : ℚ)) / (s.totalProcessed : ℚ) * 100

/-- Python `raw.get(k)` collapsed through truthiness: a missing key, None
or any falsy value reads as `none` (used for `if not raw.get(f)`). -/
def truthyGet (raw : Dict) (k : String) : Option Value :=
  match alookup raw k with
  | some v => if pyTruthy v then some v else none
  | none => none

/-- A string field read through `raw.get(k)` with Python truthiness
(`raw.get(k) or dflt` at call sites). Non-string values do not occur in
the fields of the DAAD API this is used for. -/
def truthyStrField (raw : Dict) (k : String) : Option String :=
  match truthyGet raw k with
  | some (.vStr s) => some s
  | _ => none

/-- Python truthiness on an optional string (`if not s`). -/
def truthyStr (s : Option String) : Option String :=
  match s with
  | some t => if t = "" then none else some t
  | none => none

/-- The external text primitives of Python's `re` module that the DAAD
transformer calls; the surrounding parsing logic is embedded concretely.
`searchNum` is `re.search(pattern, s)` returning the first captured
number, `sub` is `re.sub(pattern, repl, s)`. -/
structure ReFuns where
  searchNum : String → String → Option Nat
  sub : String → String → String → String

/-- `DaadTransformer._clean_html` (daad_crawler.py lines 386-398): strip
markup via the regex substitutions, then trim; empty text becomes None. -/
def cleanHtml (re : ReFuns) (html : Option String) : Option String :=
  match truthyStr html with
  | none => none
  | some h =>
    let s := re.sub "<br\\s*/?>" "\n" h
    let s := re.sub "</p\\s*>" "\n" s
    let s := re.sub "<[^>]+>" "" s
    let s := re.sub "\\n\x7b3,\x7d" "\n\n" s
    let s := pyStrip s
    if s = "" then none else some s

/-- `DaadTransformer._parse_language` (daad_crawler.py lines 300-317). -/
def parseLanguage (langs : Option (List String)) (warnings : List String) :
    String × List String :=
  match langs with
  | none => ("OTHER", warnings ++ ["Missing teaching language, defaulting to OTHER"])
  | some ls =>
    if ls.isEmpty then
      ("OTHER", warnings ++ ["Missing teaching language, defaulting to OTHER"])
    else
      let norm := (ls.filter (fun l => l ≠ "")).map (fun l => pyLower (pyStrip l))
      if ¬ norm.isEmpty ∧ norm.all (fun l => l = "english") then ("ENGLISH", warnings)
      else if ¬ norm.isEmpty ∧ norm.all (fun l => l = "german") then ("GERMAN", warnings)
      else if "english" ∈ norm then ("ENGLISH", warnings)
      else if "german" ∈ norm then ("GERMAN", warnings)
      else ("OTHER", warnings)

/-- `DaadTransformer._parse_duration` (daad_crawler.py lines 319-343):
semesters count 6 months, years 12. -/
def parseDuration (re : ReFuns) (durationStr : Option String)
    (warnings : List String) : Option Nat × List String :=
  match truthyStr durationStr with
  | none => (none, warnings ++ ["Missing program duration"])
  | some d =>
    let s := pyLower (pyStrip d)
    match re.searchNum "(\\d+)\\s*semester" s with
    | some n => (some (n * 6), warnings)
    | none =>
      match re.searchNum "(\\d+)\\s*month" s with
      | some n => (some n, warnings)
      | none =>
        match re.searchNum "(\\d+)\\s*year" s with
        | some n => (some (n * 12), warnings)
        | none => (none, warnings ++ ["Could not parse duration: " ++ d])

/-- `DaadTransformer._parse_tuition` (daad_crawler.py lines 345-366):
(is_free, amount); digits are extracted from the raw text. -/
def parseTuition (tuitionStr : Option String) (warnings : List String) :
    (Bool × Option Nat) × List String :=
  match truthyStr tuitionStr with
  | none => ((false, none), warnings)
  | some t =>
    let s := pyLower (pyStrip t)
    if s ∈ ["none", "no", "0", "0.0", "no tuition fees"] then ((true, some 0), warnings)
    else if containsSub s "varied" ∨ containsSub s "depending" ∨ containsSub s "varies" then
      ((false, none), warnings ++ ["Tuition fee varies - not extracted"])
    else
      let digits := String.mk (t.toList.filter Char.isDigit)
      if digits = "" then ((false, none), warnings)
      else
        match digits.toNat? with
        | some n => ((false, some n), warnings)
        | none => ((false, none), warnings)

/-- `DaadTransformer._parse_deadlines` (daad_crawler.py lines 368-384):
structured dates are not extracted yet, the cleaned text is kept as
notes. -/
def parseDeadlines (re : ReFuns) (deadlineHtml : Option String)
    (warnings : List String) :
    (Option String × Option String × Option String) × List String :=
  match cleanHtml re deadlineHtml with
  | none => ((none, none, none), warnings)
  | some notes => ((none, none, some notes), warnings)

/-- `Option String` to `Value` (None or the string). -/
def optStr : Option String → Value
  | some s => .vStr s
  | none => .vNone

/-- `Option Nat` to `Value` (None or the number). -/
def optNat : Option Nat → Value
  | some n => .vInt n
  | none => .vNone

/-- The `languages` field of a raw DAAD item (`list[str] | None`);
non-string members do not occur. -/
def getLangs (raw : Dict) : Option (List String) :=
  match alookup raw "languages" with
  | some (.vList vs) =>
    some (vs.filterMap (fun v => match v with | .vStr s => some s | _ => none))
  | _ => none

/-- `DaadTransformer.REQUIRED_FIELDS`. -/
def REQUIRED_FIELDS : List String := ["id", "courseName", "academy"]

/-- `DaadTransformer._build_university` (daad_crawler.py lines 231-246). -/
def buildUniversity (raw : Dict) (warnings : List String) : Dict × List String :=
  let name := (truthyStrField raw "academy").getD "Unknown University"
  let cw : String × List String :=
    match truthyStrField raw "city" with
    | some c => (c, warnings)
    | none => ("Unknown", warnings ++ ["Missing city for university"])
  ([("name", .vStr (pyStrip name)),
    ("country", .vStr "Germany"),
    ("city", .vStr (pyStrip cw.1)),
    ("website", .vNone),
    ("logo_url", .vNone)], cw.2)

/-- `DaadTransformer._build_course` (daad_crawler.py lines 248-298). The
Python body can raise (it is wrapped in try/except by `transform`), hence
the `Except` type; in this embedding every operation is total so the
error case does not arise. -/
def buildCourse (re : ReFuns) (raw : Dict) (degreeLevel : String)
    (warnings : List String) : Except String (Dict × List String) :=
  let lw := parseLanguage (getLangs raw) warnings
  let dw := parseDuration re (truthyStrField raw "programmeDuration") lw.2
  let tw := parseTuition (truthyStrField raw "tuitionFees") dw.2
  let dlw := parseDeadlines re (truthyStrField raw "applicationDeadline") tw.2
  let teachingLanguage := lw.1
  let durationMonths := dw.1
  let isFree := tw.1.1
  let feeAmount := tw.1.2
  let dNotes := dlw.1.2.2
  let programUrl : Value :=
    match truthyStrField raw "link" with
    | some l => .vStr ("https://www2.daad.de" ++ l)
    | none => .vNone
  let sourceNote := "source=daad; daad_course_id=" ++
    (match alookup raw "id" with
     | some v => pyStrOfValue v
     | none => "None")
  let fld :=
    match truthyStrField raw "subject" with
    | some s => s
    | none => (truthyStrField raw "fieldOfStudy").getD "General"
  let warnings2 :=
    if fld = "General" then dlw.2 ++ ["Missing or generic field of study"] else dlw.2
  let name := (truthyStrField raw "courseName").getD "Unknown Program"
  Except.ok
    ([("name", .vStr (pyStrip name)),
      ("degree_level", .vStr (pyUpper degreeLevel)),
      ("field", .vStr (pyStrip fld)),
      ("teaching_language", .vStr teachingLanguage),
      ("duration_months", optNat durationMonths),
      ("credits_ects", .vNone),
      ("tuition_fee_amount", optNat feeAmount),
      ("tuition_fee_currency", if feeAmount.isSome then .vStr "EUR" else .vNone),
      ("tuition_fee_per", .vStr "year"),
      ("is_tuition_free", .vBool isFree),
      ("deadline_fall", .vNone),
      ("deadline_spring", .vNone),
      ("deadline_notes", optStr dNotes),
      ("program_url", programUrl),
      ("application_url", .vNone),
      ("description", optStr (cleanHtml re (truthyStrField raw "description"))),
      ("notes", .vStr sourceNote),
      ("gpa_scale", .vStr "4.0"),
      ("gre_required", .vBool false),
      ("gmat_required", .vBool false),
      ("scholarships_available", .vBool false),
      ("verified_by_count", .vInt 0),
      ("view_count", .vInt 0)], warnings2)

/-- `DaadTransformer.transform` (daad_crawler.py lines 180-229): check
the required fields, build both payloads, and downgrade to PARTIAL when
warnings accumulated. -/
def daadTransform (re : ReFuns) (raw : Dict) : CrawlResult :=
  let sourceId :=
    match alookup raw "id" with
    | some v => pyStrOfValue v
    | none => "unknown"
  let degreeLevel := (truthyStrField raw "_degree_level").getD "master"
  let missing := REQUIRED_FIELDS.filter (fun f => (truthyGet raw f).isNone)
  if ¬ missing.isEmpty then
    { sourceId := sourceId, status := .FAILED,
      error := some { sourceId := sourceId, errorType := "MISSING_REQUIRED_FIELDS",
                      message := "Missing required fields", rawData := some raw } }
  else
    let uw := buildUniversity raw []
    match buildCourse re raw degreeLevel uw.2 with
    | .error msg =>
      { sourceId := sourceId, status := .FAILED,
        error := some { sourceId := sourceId, errorType := "COURSE_BUILD_ERROR",
                        message := msg, rawData := some raw } }
    | .ok cw =>
      let status := if ¬ cw.2.isEmpty then CrawlStatus.PARTIAL else CrawlStatus.SUCCESS
      { sourceId := sourceId, status := status,
        universityPayload := some uw.1, coursePayload := some cw.1,
        warnings := cw.2 }

/-- `BaseCrawler._extract_source_id` (crawler.py lines 281-287). -/
def extractSourceId (raw : Dict) : String :=
  match (["id", "course_id", "program_id", "url"].find?
      (fun k => (alookup raw k).isSome)) with
  | some k =>
    match alookup raw k with
    | some v => pyStrOfValue v
    | none => "unknown"
  | none => "unknown"

/-- One iteration of the guarded region of `BaseCrawler.crawl` (crawler.py
lines 232-265): the transform either returns a result, or raises — in
which case a FAILED result with error type TRANSFORM_EXCEPTION is built,
keeping the raw item (raw items here are dicts, so the `isinstance`
guard holds). -/
def crawlStep (tf : Dict → Except String CrawlResult) (raw : Dict) : CrawlResult :=
  match tf raw with
  | .ok r => r
  | .error msg =>
    let sid := extractSourceId raw
    { sourceId := sid, status := .FAILED,
      error := some { sourceId := sid, errorType := "TRANSFORM_EXCEPTION",
                      message := msg, rawData := some raw } }

/-- The crawl loop of `BaseCrawler.crawl`: every fetched raw item yields
exactly one `CrawlResult`, in order. -/
def crawlLoop (tf : Dict → Except String CrawlResult) (items : List Dict) :
    List CrawlResult :=
  items.map (crawlStep tf)

/-- `IngestionConfig` (src/crawlers/base/engine.py); the failure-log path
and the db-ready timeout are filesystem/timing concerns left out. -/
structure IngestionConfig where
  batchSize : Nat := 50
  dryRun : Bool := false
  saveFailedItems : Bool := true
deriving Repr

/-- One line of the failure log written by
`IngestionEngine._save_failed_item` (engine.py lines 173-188); the
wall-clock `timestamp` field is not modelled. -/
structure FailRecord where
  source : String
  sourceId : String
  status : String
  error : Option CrawlError
  warnings : List String
deriving Repr

/-- The record `_save_failed_item` appends for one failed result. -/
def mkFailRecord (sourceName : String) (r : CrawlResult) : FailRecord :=
  { source := sourceName, sourceId := r.sourceId, status := r.status.value,
    error := r.error, warnings := r.warnings }

/-- The observable state of one `IngestionEngine.run`: the counters of
`IngestionStats`, the contents of the append-only failure log file, the
in-memory buffer and the batches flushed to `upsert_courses_batch`. -/
structure EngineState where
  itemsFailed : Nat := 0
  itemsSkipped : Nat := 0
  coursesCreated : Nat := 0
  failedLog : List FailRecord := []
  buffer : List (CrawlResult × Int) := []
  flushed : List (List Dict) := []
deriving Repr

/-- The course payloads of one flush (`IngestionEngine._flush_buffer`
lines 159-165): each buffered result's course payload with the resolved
`university_id` written in. -/
def flushPayloads (buffer : List (CrawlResult × Int)) : List Dict :=
  buffer.filterMap (fun ru =>
    match ru.1.coursePayload with
    | some cp => some (aset cp "university_id" (Value.vInt ru.2))
    | none => none)

/-- One iteration of the result loop of `IngestionEngine.run` (engine.py
lines 111-134): non-success results are counted and appended to the
failure log; payload-incomplete successes are counted as skipped; the
rest upsert the university, join the buffer, and trigger a flush when the
buffer reaches `batch_size`. `upsertUni` abstracts
`PgStore.upsert_university` returning the university id (0 in dry run). -/
def engineStep (cfg : IngestionConfig) (upsertUni : Dict → Int)
    (sourceName : String) (st : EngineState) (r : CrawlResult) : EngineState :=
  if ¬ r.isSuccess then
    { st with itemsFailed := st.itemsFailed + 1,
              failedLog :=
                if cfg.saveFailedItems then st.failedLog ++ [mkFailRecord sourceName r]
                else st.failedLog }
  else
    match r.universityPayload, r.coursePayload with
    | some up, some _ =>
      let uniId : Int := if cfg.dryRun then 0 else upsertUni up
      let buf := st.buffer ++ [(r, uniId)]
      if cfg.batchSize ≤ buf.length then
        if cfg.dryRun then { st with buffer := [] }
        else
          { st with buffer := [],
                    flushed := st.flushed ++ [flushPayloads buf],
                    coursesCreated := st.coursesCreated + (flushPayloads buf).length }
      else { st with buffer := buf }
    | _, _ => { st with itemsSkipped := st.itemsSkipped + 1 }

/-- `IngestionEngine.run` over a finished result stream (engine.py lines
107-144): fold the loop body, then flush the nonempty remainder. -/
def engineRun (cfg : IngestionConfig) (upsertUni : Dict → Int)
    (sourceName : String) (results : List CrawlResult) (init : EngineState) :
    EngineState :=
  let st := results.foldl (engineStep cfg upsertUni sourceName) init
  if st.buffer.isEmpty then st
  else if cfg.dryRun then st
  else
    { st with flushed := st.flushed ++ [flushPayloads st.buffer],
              coursesCreated := st.coursesCreated + (flushPayloads st.buffer).length }

/-- Whether `IngestionEngine.run` ingests a result: successful with both
payloads present. -/
def ingestible (r : CrawlResult) : Bool :=
  r.isSuccess && r.universityPayload.isSome && r.coursePayload.isSome

/-- The course row an ingestible result contributes to its batch, with
the `university_id` obtained from the (stateless here) university
upsert. -/
def courseRow (upsertUni : Dict → Int) (r : CrawlResult) : Dict :=
  match r.universityPayload, r.coursePayload with
  | some up, some cp => aset cp "university_id" (Value.vInt (upsertUni up))
  | _, _ => []

/-- The persisted crawler state of `StateStore`
(src/crawlers/daad_ingestor/state.py): the per-partition offsets
(`_state["offsets"]`; a missing "offsets" key reads like the empty
mapping, so it is not distinguished). The run-history list and the
last-updated stamp do not enter the claims. Offsets are the non-negative
page indices the ingestor writes. -/
structure CrawlerState where
  offsets : List (String × Nat) := []
deriving Repr, DecidableEq

/-- `StateStore`: the in-memory `_state` plus the JSON file `_save`
writes (disk). `_load` made them equal at construction. -/
structure StateStore where
  mem : CrawlerState
  disk : CrawlerState
deriving Repr, DecidableEq

/-- A store backed by a fresh (absent) checkpoint file: `_state = {}`. -/
def StateStore.fresh : StateStore := ⟨{}, {}⟩

/-- `StateStore.get_offset` (state.py lines 53-56): the recorded offset,
0 for a partition never set. -/
def StateStore.getOffset (st : StateStore) (degreeLevel : String) : Nat :=
  (alookup st.mem.offsets degreeLevel).getD 0

/-- `StateStore.set_offset` (state.py lines 58-64): update the mapping
and `_save` the whole state to disk at once. -/
def StateStore.setOffset (st : StateStore) (degreeLevel : String) (offset : Nat) :
    StateStore :=
  let mem : CrawlerState := { offsets := aset st.mem.offsets degreeLevel offset }
  { mem := mem, disk := mem }

/-- A sequence of `set_offset` calls applied in order. -/
def applyOffsetOps (st : StateStore) (ops : List (String × Nat)) : StateStore :=
  ops.foldl (fun s kv => s.setOffset kv.1 kv.2) st

/-- The observable trace of the per-degree page loop of `ingest`
(src/crawlers/daad_ingestor/cli.py lines 159-179): the offsets passed to
`daad.search`, the items processed tagged with their page offset, and the
offsets written through `state.set_offset` after each page. -/
structure PageTrace where
  fetchOffsets : List Nat
  yielded : List (Nat × Dict)
  writes : List Nat
deriving Repr

/-- The `while True` page loop for one degree level, starting at the
loaded offset: fetch a page, stop on an empty one, otherwise process its
items, advance the offset by the page size and checkpoint it. `fuel`
bounds the number of pages (the real loop runs until the source is
exhausted). -/
def runPages (fetch : Nat → List Dict) (pageSize : Nat) :
    Nat → Nat → PageTrace
  | 0, _ => ⟨[], [], []⟩
  | fuel + 1, offset =>
    let page := fetch offset
    if page.isEmpty then ⟨[offset], [], []⟩
    else
      let rest := runPages fetch pageSize fuel (offset + pageSize)
      ⟨offset :: rest.fetchOffsets,
       page.map (fun it => (offset, it)) ++ rest.yielded,
       (offset + pageSize) :: rest.writes⟩

/-! Association-list lemmas shared by the claims. -/

theorem alookup_aset {α : Type} (d : List (String × α)) (k key : String) (v : α) :
    alookup (aset d k v) key = if k = key then some v else alookup d key := by
  induction d with
  | nil => simp [aset, alookup]
  | cons hd tl ih =>
    by_cases h1 : hd.1 = k
    · by_cases h2 : k = key
      · simp [aset, alookup, h1, h2]
      · have h3 : ¬ hd.1 = key := by
          rw [h1]; exact h2
        simp [aset, alookup, h1, h2, h3]
    · by_cases h2 : hd.1 = key
      · have h3 : ¬ k = key := by
          intro hk; exact h1 (h2.trans hk.symm)
        have h4 : ¬ key = k := fun hk => h3 hk.symm
        simp [aset, alookup, h1, h2, h3, h4]
      · simp [aset, alookup, h1, h2, ih]

theorem mem_aset {α : Type} (d : List (String × α)) (k : String) (v : α) :
    ∀ kv ∈ aset d k v, kv ∈ d ∨ kv = (k, v) := by
  induction d with
  | nil => simp [aset]
  | cons hd tl ih =>
    intro kv hkv
    by_cases h1 : hd.1 = k
    · simp only [aset, if_pos h1] at hkv
      rcases List.mem_cons.mp hkv with h | h
      · right; rw [h, h1]
      · left; exact List.mem_cons_of_mem _ h
    · simp only [aset, if_neg h1] at hkv
      rcases List.mem_cons.mp hkv with h | h
      · left; rw [h]
        exact List.mem_cons_self _ _
      · rcases ih kv h with h2 | h2
        · left; exact List.mem_cons_of_mem _ h2
        · right; exact h2

theorem aset_idem {α : Type} (d : List (String × α)) (k : String) (v : α) :
    aset (aset d k v) k v = aset d k v := by
  induction d with
  | nil => simp [aset]
  | cons hd tl ih =>
    by_cases h1 : hd.1 = k
    · simp [aset, h1]
    · simp [aset, h1, ih]

theorem applyOffsetOps_untouched (k : String) (ops : List (String × Nat)) :
    ∀ st : StateStore, k ∉ ops.map Prod.fst →
      alookup (applyOffsetOps st ops).mem.offsets k = alookup st.mem.offsets k := by
  induction ops with
  | nil => intro st _; rfl
  | cons hd tl ih =>
    intro st hk
    have hk1 : hd.1 ≠ k := by
      intro h; exact hk (by simp [h])
    have hk2 : k ∉ tl.map Prod.fst := by
      intro h; exact hk (List.mem_cons_of_mem _ h)
    have : applyOffsetOps st (hd :: tl) =
        applyOffsetOps (st.setOffset hd.1 hd.2) tl := rfl
    rw [this, ih _ hk2]
    simp [StateStore.setOffset, alookup_aset, hk1]

/-- C10: `CrawlStats.success_rate` is total — it returns 0.0 when
`total_processed` is 0, and otherwise the percentage
`(total_success + total_partial) / total_processed * 100`, whose
division has a provably nonzero denominator (the guard makes the
division-by-zero branch unreachable). -/
theorem claim_C10_success_rate_total (s : CrawlStats) :
    (s.totalProcessed = 0 → successRate s = 0) ∧
    (0 < s.totalProcessed →
      successRate s * (s.totalProcessed : ℚ) =
        ((s.totalSuccess : ℚ) + (s.totalPartial : ℚ)) * 100 ∧
      (s.totalProcessed : ℚ) ≠ 0) := by
  constructor
  · intro h; simp [successRate, h]
  · intro h
    have h0 : s.totalProcessed ≠ 0 := Nat.pos_iff_ne_zero.mp h
    have hq : (s.totalProcessed : ℚ) ≠ 0 := by exact_mod_cast h0
    constructor
    · simp only [successRate, if_neg h0]
      field_simp
    · exact hq

/-- C8: `get_offset` defaults to 0 for a partition never set (no matter
which other partitions were written), a `set_offset` is read back by
`get_offset`, and every `set_offset` writes the updated state through to
disk immediately. -/
theorem claim_C8_offset_store (st : StateStore) (k : String) (n : Nat)
    (ops : List (String × Nat)) (hk : k ∉ ops.map Prod.fst) :
    (applyOffsetOps StateStore.fresh ops).getOffset k = 0 ∧
    (st.setOffset k n).getOffset k = n ∧
    (st.setOffset k n).disk = (st.setOffset k n).mem := by
  refine ⟨?_, ?_, rfl⟩
  · unfold StateStore.getOffset
    rw [applyOffsetOps_untouched k ops StateStore.fresh hk]
    rfl
  · unfold StateStore.getOffset
    simp [StateStore.setOffset, alookup_aset]

theorem pyLen_append (a b : String) : pyLen (a ++ b) = pyLen a + pyLen b := by
  simp [pyLen, String.toList, String.data_append]

theorem pyLen_pyTake (s : String) (n : Nat) :
    pyLen (pyTake s n) = min n (pyLen s) := by
  simp [pyLen, pyTake, String.toList]

theorem truncEntry_fst (limits : String → Option Nat) (kv : String × Value) :
    (truncEntry limits kv).1 = kv.1 := by
  unfold truncEntry
  rcases kv with ⟨k, v⟩
  cases v <;> simp
  case vStr s =>
    cases limits k with
    | none => simp
    | some ml =>
      by_cases h : 0 < ml ∧ ml < pyLen s
      · simp [h]
      · simp [h]

theorem pyLen_truncateStr (ml : Nat) (s : String) (_h1 : 0 < ml) (h2 : ml < pyLen s) :
    pyLen (truncateStr ml s) = ml := by
  unfold truncateStr
  by_cases h3 : ml ≤ 3
  · rw [if_pos h3, pyLen_pyTake]
    omega
  · rw [if_neg h3, pyLen_append, pyLen_pyTake]
    have : pyLen "..." = 3 := by decide
    omega

/-- Witness for C8 at a concrete store: a partition never set reads 0
even after another partition was written; a written offset is read back;
the write went through to disk. -/
theorem claim_C8_offset_store_witness :
    (applyOffsetOps StateStore.fresh [("bachelor", 100)]).getOffset "master" = 0 ∧
    (StateStore.fresh.setOffset "master" 50).getOffset "master" = 50 ∧
    (StateStore.fresh.setOffset "master" 50).disk =
      (StateStore.fresh.setOffset "master" 50).mem :=
  claim_C8_offset_store StateStore.fresh "master" 50 [("bachelor", 100)] (by decide)

/-- C7 (counterexample to the claim as stated): for a column with
character limit 2 the over-length value "abcd" is truncated by
`_truncate` to "ab", which does not end in the ellipsis marker — the
marker is only appended when the limit exceeds 3. -/
theorem claim_C7_counterexample :
    truncatePayload (fun k => if k = "city" then some 2 else none)
        [("city", Value.vStr "abcd")] = [("city", Value.vStr "ab")] ∧
    2 < pyLen "abcd" ∧
    ¬ ∃ u : String, "ab" = u ++ "..." := by
  refine ⟨rfl, by decide, ?_⟩
  rintro ⟨u, hu⟩
  have h := congrArg pyLen hu
  rw [pyLen_append] at h
  have h2 : pyLen "ab" = 2 := by decide
  have h3 : pyLen "..." = 3 := by decide
  omega

/-- C7 (amended): before an insert or an update the payload is filtered
to the table's known columns (every prepared key is a known column), the
truncation pass keeps every entry (an over-length string is never
rejected), and an over-length string value is cut to exactly the column
limit — ending in the visible "..." marker when the limit exceeds 3, and
cut bare when the limit is at most 3. -/
theorem claim_C7_filter_truncate (allowed : List String)
    (limits : String → Option Nat) (forUpdate : Bool) (now : Value) (payload : Dict) :
    (∀ kv ∈ preparePayload allowed limits forUpdate now payload, kv.1 ∈ allowed) ∧
    (truncatePayload limits payload).map Prod.fst = payload.map Prod.fst ∧
    (∀ k s ml, (k, Value.vStr s) ∈ payload → limits k = some ml →
      0 < ml → ml < pyLen s →
      (k, Value.vStr (truncateStr ml s)) ∈ truncatePayload limits payload ∧
      pyLen (truncateStr ml s) = ml ∧
      (3 < ml → ∃ u, truncateStr ml s = u ++ "...") ∧
      (ml ≤ 3 → truncateStr ml s = pyTake s ml)) := by
  refine ⟨?_, ?_, ?_⟩
  · intro kv hkv
    unfold preparePayload truncatePayload at hkv
    rcases List.mem_map.mp hkv with ⟨kv1, hkv1, hkv2⟩
    rw [← hkv2, truncEntry_fst]
    unfold addTimestamps at hkv1
    set p0 := filterCols allowed payload with hp0
    have hbase : ∀ kv2 ∈ p0, kv2.1 ∈ allowed := by
      intro kv2 hkv2
      have := List.mem_filter.mp hkv2
      simpa using this.2
    by_cases hu : "updated_at" ∈ allowed
    · simp only [if_pos hu] at hkv1
      by_cases hc : "created_at" ∈ allowed ∧ ¬ forUpdate = true ∧
          (alookup (aset p0 "updated_at" now) "created_at").isNone = true
      · rw [if_pos hc] at hkv1
        rcases mem_aset _ _ _ _ hkv1 with h | h
        · rcases mem_aset _ _ _ _ h with h2 | h2
          · exact hbase _ h2
          · rw [h2]; exact hu
        · rw [h]; exact hc.1
      · rw [if_neg hc] at hkv1
        rcases mem_aset _ _ _ _ hkv1 with h | h
        · exact hbase _ h
        · rw [h]; exact hu
    · simp only [if_neg hu] at hkv1
      by_cases hc : "created_at" ∈ allowed ∧ ¬ forUpdate = true ∧
          (alookup p0 "created_at").isNone = true
      · rw [if_pos hc] at hkv1
        rcases mem_aset _ _ _ _ hkv1 with h | h
        · exact hbase _ h
        · rw [h]; exact hc.1
      · rw [if_neg hc] at hkv1
        exact hbase _ hkv1
  · unfold truncatePayload
    rw [List.map_map]
    apply List.map_congr_left
    intro kv _
    exact truncEntry_fst limits kv
  · intro k s ml hmem hml h0 hlen
    have hent : truncEntry limits (k, Value.vStr s) = (k, Value.vStr (truncateStr ml s)) := by
      unfold truncEntry
      simp only [hml]
      rw [if_pos ⟨h0, hlen⟩]
    refine ⟨?_, pyLen_truncateStr ml s h0 hlen, ?_, ?_⟩
    · unfold truncatePayload
      rw [← hent]
      exact List.mem_map_of_mem _ hmem
    · intro h3
      refine ⟨pyTake s (ml - 3), ?_⟩
      unfold truncateStr
      rw [if_neg (by omega)]
    · intro h3
      unfold truncateStr
      rw [if_pos h3]

theorem engineStep_counts (cfg : IngestionConfig) (u : Dict → Int) (src : String)
    (st : EngineState) (r : CrawlResult) (hsave : cfg.saveFailedItems = true) :
    (r.isSuccess = false →
      (engineStep cfg u src st r).failedLog = st.failedLog ++ [mkFailRecord src r] ∧
      (engineStep cfg u src st r).itemsFailed = st.itemsFailed + 1 ∧
      (engineStep cfg u src st r).itemsSkipped = st.itemsSkipped) ∧
    (r.isSuccess = true → (r.universityPayload.isNone ∨ r.coursePayload.isNone) →
      (engineStep cfg u src st r).failedLog = st.failedLog ∧
      (engineStep cfg u src st r).itemsFailed = st.itemsFailed ∧
      (engineStep cfg u src st r).itemsSkipped = st.itemsSkipped + 1) ∧
    (r.isSuccess = true → r.universityPayload.isSome → r.coursePayload.isSome →
      (engineStep cfg u src st r).failedLog = st.failedLog ∧
      (engineStep cfg u src st r).itemsFailed = st.itemsFailed ∧
      (engineStep cfg u src st r).itemsSkipped = st.itemsSkipped) := by
  refine ⟨?_, ?_, ?_⟩
  · intro hs
    unfold engineStep
    rw [if_pos (by simp [hs]), hsave]
    simp
  · intro hs hmiss
    unfold engineStep
    rw [if_neg (by simp [hs])]
    rcases hup : r.universityPayload with _ | up <;>
      rcases hcp : r.coursePayload with _ | cp <;> simp
    rcases hmiss with h | h
    · rw [hup] at h; simp at h
    · rw [hcp] at h; simp at h
  · intro hs hup hcp
    unfold engineStep
    rw [if_neg (by simp [hs])]
    rcases h1 : r.universityPayload with _ | up
    · rw [h1] at hup; simp at hup
    rcases h2 : r.coursePayload with _ | cp
    · rw [h2] at hcp; simp at hcp
    simp only []
    by_cases hd : cfg.dryRun = true <;>
      by_cases hb : cfg.batchSize ≤ st.buffer.length + 1 <;>
      simp [hd, hb]

theorem engineFold_counts (cfg : IngestionConfig) (u : Dict → Int) (src : String)
    (hsave : cfg.saveFailedItems = true) :
    ∀ (results : List CrawlResult) (st : EngineState),
      (results.foldl (engineStep cfg u src) st).failedLog =
        st.failedLog ++ (results.filter (fun r => !r.isSuccess)).map (mkFailRecord src) ∧
      (results.foldl (engineStep cfg u src) st).itemsFailed =
        st.itemsFailed + (results.filter (fun r => !r.isSuccess)).length ∧
      (results.foldl (engineStep cfg u src) st).itemsSkipped =
        st.itemsSkipped + (results.filter
          (fun r => r.isSuccess && (r.universityPayload.isNone || r.coursePayload.isNone))).length := by
  intro results
  induction results with
  | nil => intro st; simp
  | cons r rest ih =>
    intro st
    rw [List.foldl_cons]
    obtain ⟨ih1, ih2, ih3⟩ := ih (engineStep cfg u src st r)
    obtain ⟨step1, step2, step3⟩ := engineStep_counts cfg u src st r hsave
    by_cases hs : r.isSuccess
    · by_cases hmiss : r.universityPayload.isNone ∨ r.coursePayload.isNone
      · obtain ⟨e1, e2, e3⟩ := step2 hs hmiss
        refine ⟨?_, ?_, ?_⟩
        · rw [ih1, e1, List.filter_cons_of_neg (by simp [hs])]
        · rw [ih2, e2, List.filter_cons_of_neg (by simp [hs])]
        · rw [ih3, e3, List.filter_cons_of_pos ?_]
          · simp [Nat.add_assoc, Nat.add_comm 1]
          · simp only [Bool.and_eq_true, hs, true_and]
            rcases hmiss with h | h <;> simp [h]
      · have hup : r.universityPayload.isSome = true := by
          rcases h : r.universityPayload with _ | up2
          · exact absurd (Or.inl (by simp [h])) hmiss
          · simp
        have hcp : r.coursePayload.isSome = true := by
          rcases h : r.coursePayload with _ | cp2
          · exact absurd (Or.inr (by simp [h])) hmiss
          · simp
        obtain ⟨e1, e2, e3⟩ := step3 hs hup hcp
        obtain ⟨up2, hupe⟩ := Option.isSome_iff_exists.mp hup
        obtain ⟨cp2, hcpe⟩ := Option.isSome_iff_exists.mp hcp
        refine ⟨?_, ?_, ?_⟩
        · rw [ih1, e1, List.filter_cons_of_neg (by simp [hs])]
        · rw [ih2, e2, List.filter_cons_of_neg (by simp [hs])]
        · rw [ih3, e3, List.filter_cons_of_neg (by simp [hupe, hcpe])]
    · have hs2 : r.isSuccess = false := by
        simp at hs
        exact hs
      obtain ⟨e1, e2, e3⟩ := step1 hs2
      refine ⟨?_, ?_, ?_⟩
      · rw [ih1, e1, List.filter_cons_of_pos (by simp [hs2]), List.map_cons]
        simp
      · rw [ih2, e2, List.filter_cons_of_pos (by simp [hs2])]
        simp [Nat.add_assoc, Nat.add_comm 1]
      · rw [ih3, e3, List.filter_cons_of_neg (by simp [hs2])]

theorem engineRun_counts_eq_fold (cfg : IngestionConfig) (u : Dict → Int)
    (src : String) (results : List CrawlResult) (init : EngineState) :
    (engineRun cfg u src results init).failedLog =
      (results.foldl (engineStep cfg u src) init).failedLog ∧
    (engineRun cfg u src results init).itemsFailed =
      (results.foldl (engineStep cfg u src) init).itemsFailed ∧
    (engineRun cfg u src results init).itemsSkipped =
      (results.foldl (engineStep cfg u src) init).itemsSkipped := by
  refine ⟨?_, ?_, ?_⟩ <;>
    (simp only [engineRun]
     split
     · rfl
     · split <;> rfl)

/-- C3 (counterexample to the claim as stated): a SUCCESS result whose
university payload is missing increments the skip counter but is NOT
appended to the failure log — the log stays empty although the config
saves failed items. -/
theorem claim_C3_counterexample :
    (engineRun {} (fun _ => 0) "daad"
        [{ sourceId := "42", status := .SUCCESS, universityPayload := none,
           coursePayload := some [] }] {}).failedLog = [] ∧
    (engineRun {} (fun _ => 0) "daad"
        [{ sourceId := "42", status := .SUCCESS, universityPayload := none,
           coursePayload := some [] }] {}).itemsSkipped = 1 ∧
    ({} : IngestionConfig).saveFailedItems = true :=
  ⟨rfl, rfl, rfl⟩

/-- C3 (amended): with failure saving enabled, every non-successful
result increments the failure counter and appends exactly one structured
record (carrying the source name, source id, status, error and warnings)
to the failure log, which only ever grows by appending (the prior file
contents stay as a prefix — append mode, never truncated); a successful
result missing a payload increments the skip counter but appends
nothing. -/
theorem claim_C3_failure_log (cfg : IngestionConfig) (u : Dict → Int)
    (src : String) (results : List CrawlResult) (init : EngineState)
    (hsave : cfg.saveFailedItems = true) :
    (engineRun cfg u src results init).failedLog =
      init.failedLog ++
        (results.filter (fun r => !r.isSuccess)).map (mkFailRecord src) ∧
    (engineRun cfg u src results init).itemsFailed =
      init.itemsFailed + (results.filter (fun r => !r.isSuccess)).length ∧
    (engineRun cfg u src results init).itemsSkipped =
      init.itemsSkipped + (results.filter
        (fun r => r.isSuccess &&
          (r.universityPayload.isNone || r.coursePayload.isNone))).length := by
  obtain ⟨e1, e2, e3⟩ := engineRun_counts_eq_fold cfg u src results init
  obtain ⟨f1, f2, f3⟩ := engineFold_counts cfg u src hsave results init
  exact ⟨e1.trans f1, e2.trans f2, e3.trans f3⟩

/-- Witness for the amended C3 at a concrete run: one FAILED result is
appended to a log that already held one record from an earlier run (the
old record survives as a prefix), and one payload-incomplete SUCCESS
result is counted as skipped without being logged. -/
theorem claim_C3_failure_log_witness :
    (engineRun {} (fun _ => 0) "daad"
        [{ sourceId := "a", status := .FAILED,
           error := some { sourceId := "a", errorType := "TRANSFORM_EXCEPTION",
                           message := "boom" } },
         { sourceId := "b", status := .SUCCESS, universityPayload := none,
           coursePayload := some [] }]
        { failedLog := [{ source := "old", sourceId := "z", status := "failed",
                          error := none, warnings := [] }] }).failedLog =
      [{ source := "old", sourceId := "z", status := "failed",
         error := none, warnings := [] }] ++
        (([{ sourceId := "a", status := .FAILED,
             error := some { sourceId := "a", errorType := "TRANSFORM_EXCEPTION",
                             message := "boom" } },
           { sourceId := "b", status := .SUCCESS, universityPayload := none,
             coursePayload := some [] }] :
            List CrawlResult).filter (fun r => !r.isSuccess)).map
          (mkFailRecord "daad") ∧
    (engineRun {} (fun _ => 0) "daad"
        [{ sourceId := "a", status := .FAILED,
           error := some { sourceId := "a", errorType := "TRANSFORM_EXCEPTION",
                           message := "boom" } },
         { sourceId := "b", status := .SUCCESS, universityPayload := none,
           coursePayload := some [] }]
        { failedLog := [{ source := "old", sourceId := "z", status := "failed",
                          error := none, warnings := [] }] }).itemsFailed =
      ({ failedLog := [{ source := "old", sourceId := "z", status := "failed",
                         error := none, warnings := [] }] } :
          EngineState).itemsFailed +
        (([{ sourceId := "a", status := .FAILED,
             error := some { sourceId := "a", errorType := "TRANSFORM_EXCEPTION",
                             message := "boom" } },
           { sourceId := "b", status := .SUCCESS, universityPayload := none,
             coursePayload := some [] }] :
            List CrawlResult).filter (fun r => !r.isSuccess)).length ∧
    (engineRun {} (fun _ => 0) "daad"
        [{ sourceId := "a", status := .FAILED,
           error := some { sourceId := "a", errorType := "TRANSFORM_EXCEPTION",
                           message := "boom" } },
         { sourceId := "b", status := .SUCCESS, universityPayload := none,
           coursePayload := some [] }]
        { failedLog := [{ source := "old", sourceId := "z", status := "failed",
                          error := none, warnings := [] }] }).itemsSkipped =
      ({ failedLog := [{ source := "old", sourceId := "z", status := "failed",
                         error := none, warnings := [] }] } :
          EngineState).itemsSkipped +
        (([{ sourceId := "a", status := .FAILED,
             error := some { sourceId := "a", errorType := "TRANSFORM_EXCEPTION",
                             message := "boom" } },
           { sourceId := "b", status := .SUCCESS, universityPayload := none,
             coursePayload := some [] }] :
            List CrawlResult).filter (fun r => r.isSuccess &&
              (r.universityPayload.isNone || r.coursePayload.isNone))).length :=
  claim_C3_failure_log {} (fun _ => 0) "daad"
    [{ sourceId := "a", status := .FAILED,
       error := some { sourceId := "a", errorType := "TRANSFORM_EXCEPTION",
                       message := "boom" } },
     { sourceId := "b", status := .SUCCESS, universityPayload := none,
       coursePayload := some [] }]
    { failedLog := [{ source := "old", sourceId := "z", status := "failed",
                      error := none, warnings := [] }] } rfl

/-- C5: the crawl loop yields exactly one result per raw item, in order
(so one bad item never terminates the run); when `transform` raises on an
item, the yielded result at that position is FAILED with error type
TRANSFORM_EXCEPTION and the raw item preserved in the error's raw-data
field, and every other item is still processed by the same rule. -/
theorem claim_C5_transform_exception (tf : Dict → Except String CrawlResult)
    (items : List Dict) :
    (crawlLoop tf items).length = items.length ∧
    (∀ (i : Nat) (raw : Dict), items[i]? = some raw →
      (crawlLoop tf items)[i]? = some (crawlStep tf raw)) ∧
    (∀ (i : Nat) (raw : Dict) (msg : String),
      items[i]? = some raw → tf raw = .error msg →
      (crawlLoop tf items)[i]? = some
        ({ sourceId := extractSourceId raw, status := .FAILED,
           universityPayload := none, coursePayload := none,
           error := some { sourceId := extractSourceId raw,
                           errorType := "TRANSFORM_EXCEPTION", message := msg,
                           rawData := some raw },
           warnings := [] } : CrawlResult)) := by
  refine ⟨List.length_map _ _, ?_, ?_⟩
  · intro i raw hraw
    simp [crawlLoop, List.getElem?_map, hraw]
  · intro i raw msg hraw herr
    simp only [crawlLoop, List.getElem?_map, hraw, Option.map_some']
    unfold crawlStep
    rw [herr]

/-- C4: every result built by the DAAD transformer satisfies the
invariant (FAILED carries an error; SUCCESS or PARTIAL carries both
payloads), and the crawl loop preserves it: when the transform's own
results satisfy the invariant, so does every result the loop yields —
the loop's TRANSFORM_EXCEPTION results are FAILED with an error
present. -/
theorem claim_C4_result_invariant :
    (∀ (re : ReFuns) (raw : Dict), resultInvariant (daadTransform re raw)) ∧
    (∀ (tf : Dict → Except String CrawlResult) (items : List Dict),
      (∀ raw r, tf raw = .ok r → resultInvariant r) →
      ∀ r ∈ crawlLoop tf items, resultInvariant r) := by
  constructor
  · intro re raw
    unfold daadTransform
    dsimp only
    by_cases hm :
        ¬ (REQUIRED_FIELDS.filter (fun f => (truthyGet raw f).isNone)).isEmpty = true
    · rw [if_pos hm]
      refine ⟨fun _ => rfl, fun h => ?_⟩
      rcases h with h | h <;> simp at h
    · rw [if_neg hm]
      rcases hbc : buildCourse re raw ((truthyStrField raw "_degree_level").getD "master")
          (buildUniversity raw []).2 with msg | cw
      · simp only [hbc]
        refine ⟨fun _ => rfl, fun h => ?_⟩
        rcases h with h | h <;> simp at h
      · simp only [hbc]
        refine ⟨fun h => ?_, fun _ => ⟨rfl, rfl⟩⟩
        dsimp only at h
        split at h <;> simp at h
  · intro tf items htf r hr
    rcases List.mem_map.mp hr with ⟨raw, _, hstep⟩
    rw [← hstep]
    unfold crawlStep
    cases h : tf raw with
    | ok r2 => exact htf raw r2 h
    | error msg =>
      refine ⟨fun _ => rfl, fun hcon => ?_⟩
      rcases hcon with h2 | h2 <;> simp at h2

theorem runPages_trace (fetch : Nat → List Dict) (pageSize : Nat) :
    ∀ (fuel offset : Nat),
      List.Chain' (fun a b => b = a + pageSize)
        (offset :: (runPages fetch pageSize fuel offset).writes) ∧
      (∀ o ∈ (runPages fetch pageSize fuel offset).fetchOffsets, offset ≤ o) ∧
      (∀ p ∈ (runPages fetch pageSize fuel offset).yielded, offset ≤ p.1) := by
  intro fuel
  induction fuel with
  | zero =>
    intro offset
    refine ⟨List.chain'_singleton _, ?_, ?_⟩ <;> simp [runPages]
  | succ n ih =>
    intro offset
    by_cases hp : (fetch offset).isEmpty
    · refine ⟨?_, ?_, ?_⟩ <;> simp [runPages, hp]
    · obtain ⟨ih1, ih2, ih3⟩ := ih (offset + pageSize)
      refine ⟨?_, ?_, ?_⟩
      · simp only [runPages, if_neg hp]
        exact List.chain'_cons.mpr ⟨rfl, ih1⟩
      · simp only [runPages, if_neg hp]
        intro o ho
        rcases List.mem_cons.mp ho with h | h
        · rw [h]
        · exact le_trans (Nat.le_add_right _ _) (ih2 o h)
      · simp only [runPages, if_neg hp]
        intro p hp2
        rcases List.mem_append.mp hp2 with h | h
        · rcases List.mem_map.mp h with ⟨it, _, hit⟩
          rw [← hit]
        · exact le_trans (Nat.le_add_right _ _) (ih3 p h)

/-- C9: within one degree-level partition, the offsets checkpointed by
the page loop form a chain where each write equals the previous offset
plus the page size (hence the sequence starting from the loaded offset is
monotonically non-decreasing); a run that loads a persisted offset N from
the state store issues its first fetch at exactly N, and every item it
yields comes from a page at offset at least N — nothing from before N is
re-yielded. -/
theorem claim_C9_checkpoint_resume (store : StateStore) (degreeLevel : String)
    (fetch : Nat → List Dict) (pageSize fuel : Nat) :
    List.Chain' (fun a b => b = a + pageSize)
      (store.getOffset degreeLevel ::
        (runPages fetch pageSize fuel (store.getOffset degreeLevel)).writes) ∧
    List.Chain' (fun a b => a ≤ b)
      (store.getOffset degreeLevel ::
        (runPages fetch pageSize fuel (store.getOffset degreeLevel)).writes) ∧
    (0 < fuel →
      (runPages fetch pageSize fuel (store.getOffset degreeLevel)).fetchOffsets.head? =
        some (store.getOffset degreeLevel)) ∧
    (∀ o ∈ (runPages fetch pageSize fuel (store.getOffset degreeLevel)).fetchOffsets,
      store.getOffset degreeLevel ≤ o) ∧
    (∀ p ∈ (runPages fetch pageSize fuel (store.getOffset degreeLevel)).yielded,
      store.getOffset degreeLevel ≤ p.1) := by
  obtain ⟨h1, h2, h3⟩ :=
    runPages_trace fetch pageSize fuel (store.getOffset degreeLevel)
  refine ⟨h1, ?_, ?_, h2, h3⟩
  · exact List.Chain'.imp (fun a b hab => by rw [hab]; exact Nat.le_add_right a _) h1
  · intro hfuel
    rcases fuel with _ | n
    · exact absurd hfuel (by simp)
    · by_cases hp : (fetch (store.getOffset degreeLevel)).isEmpty <;>
        simp [runPages, hp]

theorem bfm_fold_inv (ratioFn : String → String → Nat) (needle key : String)
    (minScore : Nat) :
    ∀ (cands : List Dict) (acc : Option Dict × Nat),
      (cands.foldl (bfmStep ratioFn needle key minScore) acc = acc ∨
        ∃ c ∈ cands,
          (cands.foldl (bfmStep ratioFn needle key minScore) acc).1 = some c ∧
          (cands.foldl (bfmStep ratioFn needle key minScore) acc).2 =
            candScore ratioFn needle key c ∧
          minScore ≤ (cands.foldl (bfmStep ratioFn needle key minScore) acc).2) ∧
      acc.2 ≤ (cands.foldl (bfmStep ratioFn needle key minScore) acc).2 ∧
      (∀ c ∈ cands, minScore ≤ candScore ratioFn needle key c →
        candScore ratioFn needle key c ≤
          (cands.foldl (bfmStep ratioFn needle key minScore) acc).2) := by
  intro cands
  induction cands with
  | nil =>
    intro acc
    refine ⟨Or.inl rfl, le_refl _, ?_⟩
    simp
  | cons c cs ih =>
    intro acc
    rw [List.foldl_cons]
    obtain ⟨ihA, ihB, ihC⟩ := ih (bfmStep ratioFn needle key minScore acc c)
    by_cases hcond : acc.2 < candScore ratioFn needle key c ∧
        minScore ≤ candScore ratioFn needle key c
    · have hstep : bfmStep ratioFn needle key minScore acc c =
          (some c, candScore ratioFn needle key c) := by
        unfold bfmStep
        rw [if_pos hcond]
      rw [hstep] at ihA ihB ihC ⊢
      refine ⟨?_, ?_, ?_⟩
      · rcases ihA with h | ⟨c2, hc2, h1, h2, h3⟩
        · right
          exact ⟨c, List.mem_cons_self _ _, by rw [h], by rw [h], by rw [h]; exact hcond.2⟩
        · right
          exact ⟨c2, List.mem_cons_of_mem _ hc2, h1, h2, h3⟩
      · exact le_trans (le_of_lt hcond.1) ihB
      · intro c2 hc2 hmin
        rcases List.mem_cons.mp hc2 with h | h
        · rw [h]
          exact ihB
        · exact ihC c2 h hmin
    · have hstep : bfmStep ratioFn needle key minScore acc c = acc := by
        unfold bfmStep
        rw [if_neg hcond]
      rw [hstep] at ihA ihB ihC ⊢
      refine ⟨?_, ihB, ?_⟩
      · rcases ihA with h | ⟨c2, hc2, h1, h2, h3⟩
        · exact Or.inl h
        · exact Or.inr ⟨c2, List.mem_cons_of_mem _ hc2, h1, h2, h3⟩
      · intro c2 hc2 hmin
        rcases List.mem_cons.mp hc2 with h | h
        · have hle : candScore ratioFn needle key c ≤ acc.2 := by
            by_contra hlt
            exact hcond ⟨Nat.lt_of_not_le hlt, by rw [← h]; exact hmin⟩
          rw [h]
          exact le_trans hle ihB
        · exact ihC c2 h hmin

/-- C2: whenever some candidate scores at or above the threshold, the
fuzzy match selects a candidate with the highest score (at or above the
threshold) and the university upsert updates that row; whenever every
candidate scores below the threshold, the fuzzy match is empty and both
the university upsert and the course upsert (absent an exact source-id
tag match) insert a new row instead. -/
theorem claim_C2_fuzzy_threshold (ratioFn : String → String → Nat)
    (candidates : List Dict) (payload : Dict) (minScore : Nat) (hpos : 0 < minScore) :
    ((∃ c ∈ candidates,
        minScore ≤ candScore ratioFn (getNameOr payload "Unknown") "name" c) →
      ∃ c ∈ candidates,
        bestFuzzyMatch ratioFn (getNameOr payload "Unknown") candidates "name"
            minScore = some c ∧
        minScore ≤ candScore ratioFn (getNameOr payload "Unknown") "name" c ∧
        (∀ c2 ∈ candidates,
          candScore ratioFn (getNameOr payload "Unknown") "name" c2 ≤
            candScore ratioFn (getNameOr payload "Unknown") "name" c) ∧
        upsertUniversityDecision ratioFn candidates payload minScore =
          UpsertDecision.matched (getIdInt c) (wisePatch c payload)) ∧
    ((∀ c ∈ candidates,
        candScore ratioFn (getNameOr payload "Unknown") "name" c < minScore) →
      upsertUniversityDecision ratioFn candidates payload minScore =
        UpsertDecision.inserted payload ∧
      (∀ (notesColExists : Bool) (table : List Dict),
        findDaadTag (getStr payload "notes") = none →
        upsertCourseDecision ratioFn notesColExists table candidates payload
            minScore = UpsertDecision.inserted payload)) := by
  obtain ⟨hA, hB, hC⟩ := bfm_fold_inv ratioFn (getNameOr payload "Unknown") "name"
    minScore candidates ((none : Option Dict), 0)
  constructor
  · rintro ⟨c0, hc0, hsc0⟩
    rcases hA with h | ⟨c, hc, h1, h2, h3⟩
    · exfalso
      have := hC c0 hc0 hsc0
      rw [h] at this
      exact absurd (le_trans hsc0 this) (by omega)
    · have hbfm : bestFuzzyMatch ratioFn (getNameOr payload "Unknown") candidates
          "name" minScore = some c := h1
      refine ⟨c, hc, hbfm, by rw [← h2]; exact h3, ?_, ?_⟩
      · intro c2 hc2
        by_cases hmin : minScore ≤ candScore ratioFn (getNameOr payload "Unknown") "name" c2
        · have := hC c2 hc2 hmin
          rw [h2] at this
          exact this
        · have hlt := Nat.lt_of_not_le hmin
          have : minScore ≤ candScore ratioFn (getNameOr payload "Unknown") "name" c := by
            rw [← h2]; exact h3
          omega
      · unfold upsertUniversityDecision
        dsimp only
        rw [hbfm]
  · intro hall
    have hbfm : bestFuzzyMatch ratioFn (getNameOr payload "Unknown") candidates
        "name" minScore = none := by
      rcases hA with h | ⟨c, hc, h1, h2, h3⟩
      · unfold bestFuzzyMatch
        rw [h]
      · exfalso
        rw [h2] at h3
        exact absurd h3 (Nat.not_le_of_lt (hall c hc))
    constructor
    · unfold upsertUniversityDecision
      dsimp only
      rw [hbfm]
    · intro notesColExists table htag
      unfold upsertCourseDecision
      dsimp only
      rw [htag, hbfm]

/-- Witness for C2 at concrete rows: against two stored universities
scoring 95 and 80 at threshold 90, the store selects the 95-score row
(id 1) and updates it; when every candidate scores 70, the payload is
inserted as a new row instead. -/
theorem claim_C2_fuzzy_threshold_witness :
    (∃ c ∈ ([[("id", Value.vInt 1), ("name", Value.vStr "Uni A")],
             [("id", Value.vInt 2), ("name", Value.vStr "Uni B")]] : List Dict),
      bestFuzzyMatch (fun _ cn => if cn = "uni a" then 95 else 80)
          (getNameOr [("name", Value.vStr "Incoming University")] "Unknown")
          [[("id", Value.vInt 1), ("name", Value.vStr "Uni A")],
           [("id", Value.vInt 2), ("name", Value.vStr "Uni B")]] "name" 90 = some c ∧
      90 ≤ candScore (fun _ cn => if cn = "uni a" then 95 else 80)
          (getNameOr [("name", Value.vStr "Incoming University")] "Unknown") "name" c ∧
      (∀ c2 ∈ ([[("id", Value.vInt 1), ("name", Value.vStr "Uni A")],
                [("id", Value.vInt 2), ("name", Value.vStr "Uni B")]] : List Dict),
        candScore (fun _ cn => if cn = "uni a" then 95 else 80)
            (getNameOr [("name", Value.vStr "Incoming University")] "Unknown") "name" c2 ≤
          candScore (fun _ cn => if cn = "uni a" then 95 else 80)
            (getNameOr [("name", Value.vStr "Incoming University")] "Unknown") "name" c) ∧
      upsertUniversityDecision (fun _ cn => if cn = "uni a" then 95 else 80)
          [[("id", Value.vInt 1), ("name", Value.vStr "Uni A")],
           [("id", Value.vInt 2), ("name", Value.vStr "Uni B")]]
          [("name", Value.vStr "Incoming University")] 90 =
        UpsertDecision.matched (getIdInt c)
          (wisePatch c [("name", Value.vStr "Incoming University")])) ∧
    upsertUniversityDecision (fun _ _ => 70)
        [[("id", Value.vInt 1), ("name", Value.vStr "Uni A")],
         [("id", Value.vInt 2), ("name", Value.vStr "Uni B")]]
        [("name", Value.vStr "Incoming University")] 90 =
      UpsertDecision.inserted [("name", Value.vStr "Incoming University")] :=
  ⟨(claim_C2_fuzzy_threshold (fun _ cn => if cn = "uni a" then 95 else 80)
      [[("id", Value.vInt 1), ("name", Value.vStr "Uni A")],
       [("id", Value.vInt 2), ("name", Value.vStr "Uni B")]]
      [("name", Value.vStr "Incoming University")] 90 (by decide)).1
    ⟨[("id", Value.vInt 1), ("name", Value.vStr "Uni A")],
      List.mem_cons_self _ _, by decide⟩,
   ((claim_C2_fuzzy_threshold (fun _ _ => 70)
      [[("id", Value.vInt 1), ("name", Value.vStr "Uni A")],
       [("id", Value.vInt 2), ("name", Value.vStr "Uni B")]]
      [("name", Value.vStr "Incoming University")] 90 (by decide)).2
    (by decide)).1⟩

theorem refreshOk_spec (old : Option Value) (v : Value) (h : refreshOk old v = true) :
    ∃ s t, v = Value.vStr s ∧ old = some (Value.vStr t) ∧ pyStrip s ≠ pyStrip t := by
  unfold refreshOk at h
  cases v with
  | vStr s =>
    cases old with
    | none => simp at h
    | some w =>
      cases w with
      | vStr t => exact ⟨s, t, rfl, rfl, by simpa using h⟩
      | vNone => simp at h
      | vInt _ => simp at h
      | vBool _ => simp at h
      | vTime _ => simp at h
      | vList _ => simp at h
      | vDict _ => simp at h
  | vNone => simp at h
  | vInt _ => simp at h
  | vBool _ => simp at h
  | vTime _ => simp at h
  | vList _ => simp at h
  | vDict _ => simp at h

theorem foldl_wisePatchStep_cond (existing : Dict) :
    ∀ (l acc : Dict),
      (∀ kv ∈ acc, isEmptyOpt (alookup existing kv.1) = true ∨
        (kv.1 ∈ refreshFields ∧ ∃ s t, kv.2 = Value.vStr s ∧
          alookup existing kv.1 = some (Value.vStr t) ∧ pyStrip s ≠ pyStrip t)) →
      ∀ kv ∈ l.foldl (wisePatchStep existing) acc,
        isEmptyOpt (alookup existing kv.1) = true ∨
        (kv.1 ∈ refreshFields ∧ ∃ s t, kv.2 = Value.vStr s ∧
          alookup existing kv.1 = some (Value.vStr t) ∧ pyStrip s ≠ pyStrip t) := by
  intro l
  induction l with
  | nil => intro acc hacc; exact hacc
  | cons c cs ih =>
    intro acc hacc
    rw [List.foldl_cons]
    apply ih
    intro kv hkv
    unfold wisePatchStep at hkv
    dsimp only at hkv
    by_cases h0 : c.2.isNoneV
    · rw [if_pos h0] at hkv
      exact hacc kv hkv
    · rw [if_neg h0] at hkv
      by_cases h1 : c.1 ∈ refreshFields ∧ refreshOk (alookup existing c.1) c.2 = true
      · rw [if_pos h1] at hkv
        rcases mem_aset _ _ _ _ hkv with h | h
        · by_cases h2 : isEmptyOpt (alookup existing c.1) = true
          · rw [if_pos h2] at h
            rcases mem_aset _ _ _ _ h with h3 | h3
            · exact hacc kv h3
            · rw [h3]; left; exact h2
          · rw [if_neg h2] at h
            exact hacc kv h
        · rw [h]
          right
          obtain ⟨s, t, hv, hold, hst⟩ := refreshOk_spec _ _ h1.2
          exact ⟨h1.1, s, t, hv, hold, hst⟩
      · rw [if_neg h1] at hkv
        by_cases h2 : isEmptyOpt (alookup existing c.1) = true
        · rw [if_pos h2] at hkv
          rcases mem_aset _ _ _ _ hkv with h | h
          · exact hacc kv h
          · rw [h]; left; exact h2
        · rw [if_neg h2] at hkv
          exact hacc kv hkv

theorem foldl_wisePatchStep_keyFree (existing : Dict) (k : String)
    (hne : ¬ isEmptyOpt (alookup existing k) = true) :
    ∀ (l acc : Dict),
      (∀ v, (k, v) ∈ l →
        ¬ (k ∈ refreshFields ∧ refreshOk (alookup existing k) v = true)) →
      (∀ kv ∈ acc, kv.1 ≠ k) →
      ∀ kv ∈ l.foldl (wisePatchStep existing) acc, kv.1 ≠ k := by
  intro l
  induction l with
  | nil => intro acc _ hacc; exact hacc
  | cons c cs ih =>
    intro acc hl hacc
    rw [List.foldl_cons]
    apply ih
    · intro v hv
      exact hl v (List.mem_cons_of_mem _ hv)
    · intro kv hkv
      unfold wisePatchStep at hkv
      dsimp only at hkv
      by_cases h0 : c.2.isNoneV
      · rw [if_pos h0] at hkv
        exact hacc kv hkv
      · rw [if_neg h0] at hkv
        by_cases hck : c.1 = k
        · have hemp : ¬ isEmptyOpt (alookup existing c.1) = true := by
            rw [hck]; exact hne
          rw [if_neg hemp] at hkv
          have hrc : ¬ (c.1 ∈ refreshFields ∧
              refreshOk (alookup existing c.1) c.2 = true) := by
            rw [hck]
            exact hl c.2 (by
              have : c = (k, c.2) := by
                rw [← hck]
              rw [← this]
              exact List.mem_cons_self _ _)
          rw [if_neg hrc] at hkv
          exact hacc kv hkv
        · by_cases h2 : isEmptyOpt (alookup existing c.1) = true
          · rw [if_pos h2] at hkv
            by_cases h1 : c.1 ∈ refreshFields ∧ refreshOk (alookup existing c.1) c.2 = true
            · rw [if_pos h1] at hkv
              rcases mem_aset _ _ _ _ hkv with h | h
              · rcases mem_aset _ _ _ _ h with h3 | h3
                · exact hacc kv h3
                · rw [h3]; exact hck
              · rw [h]; exact hck
            · rw [if_neg h1] at hkv
              rcases mem_aset _ _ _ _ hkv with h | h
              · exact hacc kv h
              · rw [h]; exact hck
          · rw [if_neg h2] at hkv
            by_cases h1 : c.1 ∈ refreshFields ∧ refreshOk (alookup existing c.1) c.2 = true
            · rw [if_pos h1] at hkv
              rcases mem_aset _ _ _ _ hkv with h | h
              · exact hacc kv h
              · rw [h]; exact hck
            · rw [if_neg h1] at hkv
              exact hacc kv hkv

theorem alookup_applyPatch_keyFree (k : String) :
    ∀ (patch row : Dict), (∀ kv ∈ patch, kv.1 ≠ k) →
      alookup (applyPatch row patch) k = alookup row k := by
  intro patch
  induction patch with
  | nil => intro row _; rfl
  | cons c cs ih =>
    intro row hfree
    have hc : c.1 ≠ k := hfree c (List.mem_cons_self _ _)
    have : applyPatch row (c :: cs) = applyPatch (aset row c.1 c.2) cs := rfl
    rw [this, ih _ (fun kv hkv => hfree kv (List.mem_cons_of_mem _ hkv)),
      alookup_aset, if_neg hc]

theorem mergePatchStep_eq (existing : Dict) (patch : Dict) (kv : String × Value) :
    mergePatchStep existing patch kv = wisePatchStep existing patch kv := by
  unfold mergePatchStep wisePatchStep
  dsimp only
  by_cases h0 : kv.2.isNoneV
  · rw [if_pos h0, if_pos h0]
  · rw [if_neg h0, if_neg h0]
    by_cases h2 : isEmptyOpt (alookup existing kv.1) = true
    · rw [if_pos h2, if_pos h2]
      by_cases h1 : kv.1 ∈ refreshFields ∧ refreshOk (alookup existing kv.1) kv.2 = true
      · rw [if_pos h1, aset_idem]
      · rw [if_neg h1]
    · rw [if_neg h2, if_neg h2]
      by_cases h1 : kv.1 ∈ refreshFields ∧ refreshOk (alookup existing kv.1) kv.2 = true
      · rw [if_pos h1, if_pos ⟨h1.2, h1.1⟩]
      · rw [if_neg h1, if_neg (fun hc => h1 ⟨hc.2, hc.1⟩)]

theorem mergePatch_eq_wisePatch (existing newPayload : Dict) :
    mergePatch existing newPayload = wisePatch existing newPayload := by
  unfold mergePatch wisePatch
  have hstep : mergePatchStep existing = wisePatchStep existing :=
    funext fun patch => funext fun kv => mergePatchStep_eq existing patch kv
  rw [hstep]

/-- C1: the wise-patch merge (both the store's `_wise_patch` and the
ingestor's `merge_patch`, which agree) writes a field only when the
existing value is empty/null or the field is on the refreshable
allow-list with an incoming string different from the stored one; every
other non-empty existing field is left unchanged when the patch is
applied to the row. -/
theorem claim_C1_wise_patch_frame (existing newPayload : Dict) (k : String) :
    (∀ v, (k, v) ∈ wisePatch existing newPayload →
      isEmptyOpt (alookup existing k) = true ∨
        (k ∈ refreshFields ∧ ∃ s t, v = Value.vStr s ∧
          alookup existing k = some (Value.vStr t) ∧ s ≠ t)) ∧
    mergePatch existing newPayload = wisePatch existing newPayload ∧
    (¬ isEmptyOpt (alookup existing k) = true →
      (k ∉ refreshFields ∨
        ∀ s t, (k, Value.vStr s) ∈ newPayload →
          alookup existing k = some (Value.vStr t) → s = t) →
      alookup (applyPatch existing (wisePatch existing newPayload)) k =
        alookup existing k) := by
  refine ⟨?_, mergePatch_eq_wisePatch existing newPayload, ?_⟩
  · intro v hv
    have := foldl_wisePatchStep_cond existing newPayload [] (by simp) (k, v) hv
    rcases this with h | ⟨hr, s, t, hs, ht, hst⟩
    · left; exact h
    · right
      refine ⟨hr, s, t, hs, ht, fun he => hst ?_⟩
      rw [he]
  · intro hne hyp
    apply alookup_applyPatch_keyFree
    apply foldl_wisePatchStep_keyFree existing k hne newPayload []
    · intro v hv hcontra
      rcases hyp with hyp | hyp
      · exact hyp hcontra.1
      · obtain ⟨s, t, hs, ht, hst⟩ := refreshOk_spec _ _ hcontra.2
        have hmem : (k, Value.vStr s) ∈ newPayload := by
          rw [← hs]; exact hv
        exact hst (by rw [hyp s t hmem ht])
    · simp

theorem flushPayloads_append (a b : List (CrawlResult × Int)) :
    flushPayloads (a ++ b) = flushPayloads a ++ flushPayloads b := by
  unfold flushPayloads
  exact List.filterMap_append _ _ _

theorem engineFold_batches (cfg : IngestionConfig) (u : Dict → Int) (src : String)
    (hdry : cfg.dryRun = false) (hbs : 1 ≤ cfg.batchSize) :
    ∀ (results : List CrawlResult) (st : EngineState),
      (∀ b ∈ st.flushed, b.length = cfg.batchSize) →
      st.buffer.length < cfg.batchSize →
      (flushPayloads st.buffer).length = st.buffer.length →
      (∀ b ∈ (results.foldl (engineStep cfg u src) st).flushed,
        b.length = cfg.batchSize) ∧
      (results.foldl (engineStep cfg u src) st).buffer.length < cfg.batchSize ∧
      (flushPayloads (results.foldl (engineStep cfg u src) st).buffer).length =
        (results.foldl (engineStep cfg u src) st).buffer.length ∧
      (results.foldl (engineStep cfg u src) st).flushed.flatten ++
          flushPayloads (results.foldl (engineStep cfg u src) st).buffer =
        (st.flushed.flatten ++ flushPayloads st.buffer) ++
          (results.filter ingestible).map (courseRow u) := by
  intro results
  induction results with
  | nil =>
    intro st h1 h2 h3
    refine ⟨h1, h2, h3, ?_⟩
    simp
  | cons r rest ih =>
    intro st h1 h2 h3
    rw [List.foldl_cons]
    by_cases hs : r.isSuccess
    · rcases hup : r.universityPayload with _ | up
      · -- success without university payload: counted as skipped
        have hstep : engineStep cfg u src st r =
            { st with itemsSkipped := st.itemsSkipped + 1 } := by
          unfold engineStep
          rw [if_neg (by simp [hs]), hup]
        rw [hstep]
        obtain ⟨g1, g2, g3, g4⟩ := ih { st with itemsSkipped := st.itemsSkipped + 1 } h1 h2 h3
        refine ⟨g1, g2, g3, ?_⟩
        rw [g4, List.filter_cons_of_neg (by simp [ingestible, hup])]
      · rcases hcp : r.coursePayload with _ | cp
        · -- success without course payload: counted as skipped
          have hstep : engineStep cfg u src st r =
              { st with itemsSkipped := st.itemsSkipped + 1 } := by
            unfold engineStep
            rw [if_neg (by simp [hs]), hup, hcp]
          rw [hstep]
          obtain ⟨g1, g2, g3, g4⟩ := ih { st with itemsSkipped := st.itemsSkipped + 1 } h1 h2 h3
          refine ⟨g1, g2, g3, ?_⟩
          rw [g4, List.filter_cons_of_neg (by simp [ingestible, hcp])]
        · -- ingestible result: buffered, possibly flushed
          have hrow : flushPayloads [(r, u up)] = [courseRow u r] := by
            simp [flushPayloads, courseRow, hup, hcp]
          have hfb : flushPayloads (st.buffer ++ [(r, u up)]) =
              flushPayloads st.buffer ++ [courseRow u r] := by
            rw [flushPayloads_append, hrow]
          have hfblen : (flushPayloads (st.buffer ++ [(r, u up)])).length =
              st.buffer.length + 1 := by
            rw [hfb]
            simp only [List.length_append, List.length_singleton, h3]
          have hing : ingestible r = true := by
            simp [ingestible, hs, hup, hcp]
          by_cases hfl : cfg.batchSize ≤ (st.buffer ++ [(r, u up)]).length
          · have hstep : engineStep cfg u src st r =
                { st with buffer := [],
                          flushed := st.flushed ++
                            [flushPayloads (st.buffer ++ [(r, u up)])],
                          coursesCreated := st.coursesCreated +
                            (flushPayloads (st.buffer ++ [(r, u up)])).length } := by
              unfold engineStep
              rw [if_neg (by simp [hs]), hup, hcp]
              simp only [hdry, Bool.false_eq_true, if_false]
              rw [if_pos hfl]
            have hlen : (st.buffer ++ [(r, u up)]).length = cfg.batchSize := by
              simp only [List.length_append, List.length_singleton] at hfl ⊢
              omega
            rw [hstep]
            obtain ⟨g1, g2, g3, g4⟩ := ih
              { st with buffer := [],
                        flushed := st.flushed ++
                          [flushPayloads (st.buffer ++ [(r, u up)])],
                        coursesCreated := st.coursesCreated +
                          (flushPayloads (st.buffer ++ [(r, u up)])).length }
              (by
                intro b hb
                rcases List.mem_append.mp hb with h | h
                · exact h1 b h
                · rw [List.mem_singleton.mp h, hfblen, ← hlen]
                  simp)
              (by simpa using hbs)
              (by simp [flushPayloads])
            refine ⟨g1, g2, g3, ?_⟩
            rw [g4, List.filter_cons_of_pos hing]
            dsimp only
            rw [hfb]
            simp [List.flatten_append, List.append_assoc, flushPayloads]
          · have hstep : engineStep cfg u src st r =
                { st with buffer := st.buffer ++ [(r, u up)] } := by
              unfold engineStep
              rw [if_neg (by simp [hs]), hup, hcp]
              simp only [hdry, Bool.false_eq_true, if_false]
              rw [if_neg hfl]
            rw [hstep]
            obtain ⟨g1, g2, g3, g4⟩ := ih { st with buffer := st.buffer ++ [(r, u up)] }
              h1
              (by
                simp only [List.length_append, List.length_singleton] at hfl ⊢
                omega)
              (by
                simp only []
                rw [hfblen]
                simp [List.length_append])
            refine ⟨g1, g2, g3, ?_⟩
            rw [g4, List.filter_cons_of_pos hing]
            dsimp only
            rw [hfb]
            simp [List.append_assoc]
    · -- non-success: logged, nothing buffered
      have hstep : (engineStep cfg u src st r).flushed = st.flushed ∧
          (engineStep cfg u src st r).buffer = st.buffer := by
        unfold engineStep
        rw [if_pos (by simp [hs])]
        exact ⟨rfl, rfl⟩
      obtain ⟨g1, g2, g3, g4⟩ := ih (engineStep cfg u src st r)
        (by rw [hstep.1]; exact h1)
        (by rw [hstep.2]; exact h2)
        (by rw [hstep.2]; exact h3)
      refine ⟨g1, g2, g3, ?_⟩
      rw [g4, hstep.1, hstep.2,
        List.filter_cons_of_neg (by simp [ingestible, hs])]

/-- C6: with batching enabled (no dry run, positive batch size) and a
fresh engine state, every flushed batch except possibly the last holds
exactly `batch_size` course rows, every batch is nonempty and no larger
than `batch_size`, and the concatenation of all flushed batches is
exactly the course rows (with resolved university ids) of the successful
results that carried both payloads, in order — no buffered successful
item is dropped. -/
theorem claim_C6_batch_flush (cfg : IngestionConfig) (u : Dict → Int) (src : String)
    (results : List CrawlResult) (init : EngineState)
    (hdry : cfg.dryRun = false) (hbs : 1 ≤ cfg.batchSize)
    (hbuf : init.buffer = []) (hfl : init.flushed = []) :
    (∀ b ∈ (engineRun cfg u src results init).flushed.dropLast,
      b.length = cfg.batchSize) ∧
    (∀ b ∈ (engineRun cfg u src results init).flushed,
      1 ≤ b.length ∧ b.length ≤ cfg.batchSize) ∧
    (engineRun cfg u src results init).flushed.flatten =
      (results.filter ingestible).map (courseRow u) := by
  obtain ⟨g1, g2, g3, g4⟩ := engineFold_batches cfg u src hdry hbs results init
    (by rw [hfl]; simp)
    (by rw [hbuf]; simpa using hbs)
    (by rw [hbuf]; rfl)
  rw [hfl, hbuf] at g4
  have g4b : (results.foldl (engineStep cfg u src) init).flushed.flatten ++
      flushPayloads (results.foldl (engineStep cfg u src) init).buffer =
      (results.filter ingestible).map (courseRow u) := by
    rw [g4]
    simp [flushPayloads]
  by_cases hempty : (results.foldl (engineStep cfg u src) init).buffer.isEmpty
  · have hbnil : (results.foldl (engineStep cfg u src) init).buffer = [] := by
      simpa using hempty
    have hrun : engineRun cfg u src results init =
        results.foldl (engineStep cfg u src) init := by
      simp only [engineRun]
      rw [if_pos hempty]
    rw [hrun]
    refine ⟨?_, ?_, ?_⟩
    · intro b hb
      exact g1 b (List.dropLast_subset _ hb)
    · intro b hb
      refine ⟨?_, le_of_eq (g1 b hb)⟩
      rw [g1 b hb]
      exact hbs
    · rw [hbnil] at g4b
      simpa [flushPayloads] using g4b
  · have hbne : (results.foldl (engineStep cfg u src) init).buffer ≠ [] := by
      intro h
      rw [h] at hempty
      simp at hempty
    have hrun : engineRun cfg u src results init =
        { results.foldl (engineStep cfg u src) init with
          flushed := (results.foldl (engineStep cfg u src) init).flushed ++
            [flushPayloads (results.foldl (engineStep cfg u src) init).buffer],
          coursesCreated := (results.foldl (engineStep cfg u src) init).coursesCreated +
            (flushPayloads (results.foldl (engineStep cfg u src) init).buffer).length } := by
      simp only [engineRun]
      rw [if_neg hempty, if_neg (by simp [hdry])]
    rw [hrun]
    dsimp only
    refine ⟨?_, ?_, ?_⟩
    · intro b hb
      rw [List.dropLast_concat] at hb
      exact g1 b hb
    · intro b hb
      rcases List.mem_append.mp hb with h | h
      · refine ⟨?_, le_of_eq (g1 b h)⟩
        rw [g1 b h]
        exact hbs
      · rw [List.mem_singleton.mp h, g3]
        have hpos : 0 < (results.foldl (engineStep cfg u src) init).buffer.length :=
          List.length_pos.mpr hbne

        omega
    · rw [List.flatten_append]
      simp only [List.flatten_cons, List.flatten_nil, List.append_nil]
      exact g4b

/-- Witness for C6 at a concrete run: batch size 2, three ingestible
results and one failed result give one full batch of 2, a final batch of
1, and a flattened flush equal to the course rows of the ingestible
results. -/
theorem claim_C6_batch_flush_witness :
    (∀ b ∈ (engineRun { batchSize := 2 } (fun _ => 7) "daad"
        [{ sourceId := "1", status := .SUCCESS, universityPayload := some [],
           coursePayload := some [] },
         { sourceId := "2", status := .FAILED,
           error := some { sourceId := "2", errorType := "X", message := "m" } },
         { sourceId := "3", status := .PARTIAL, universityPayload := some [],
           coursePayload := some [("name", Value.vStr "c")] },
         { sourceId := "4", status := .SUCCESS, universityPayload := some [],
           coursePayload := some [] }] {}).flushed.dropLast,
      b.length = ({ batchSize := 2 } : IngestionConfig).batchSize) ∧
    (∀ b ∈ (engineRun { batchSize := 2 } (fun _ => 7) "daad"
        [{ sourceId := "1", status := .SUCCESS, universityPayload := some [],
           coursePayload := some [] },
         { sourceId := "2", status := .FAILED,
           error := some { sourceId := "2", errorType := "X", message := "m" } },
         { sourceId := "3", status := .PARTIAL, universityPayload := some [],
           coursePayload := some [("name", Value.vStr "c")] },
         { sourceId := "4", status := .SUCCESS, universityPayload := some [],
           coursePayload := some [] }] {}).flushed,
      1 ≤ b.length ∧ b.length ≤ ({ batchSize := 2 } : IngestionConfig).batchSize) ∧
    (engineRun { batchSize := 2 } (fun _ => 7) "daad"
        [{ sourceId := "1", status := .SUCCESS, universityPayload := some [],
           coursePayload := some [] },
         { sourceId := "2", status := .FAILED,
           error := some { sourceId := "2", errorType := "X", message := "m" } },
         { sourceId := "3", status := .PARTIAL, universityPayload := some [],
           coursePayload := some [("name", Value.vStr "c")] },
         { sourceId := "4", status := .SUCCESS, universityPayload := some [],
           coursePayload := some [] }] {}).flushed.flatten =
      (([{ sourceId := "1", status := .SUCCESS, universityPayload := some [],
           coursePayload := some [] },
         { sourceId := "2", status := .FAILED,
           error := some { sourceId := "2", errorType := "X", message := "m" } },
         { sourceId := "3", status := .PARTIAL, universityPayload := some [],
           coursePayload := some [("name", Value.vStr "c")] },
         { sourceId := "4", status := .SUCCESS, universityPayload := some [],
           coursePayload := some [] }] : List CrawlResult).filter
          ingestible).map (courseRow (fun _ => 7)) :=
  claim_C6_batch_flush { batchSize := 2 } (fun _ => 7) "daad"
    [{ sourceId := "1", status := .SUCCESS, universityPayload := some [],
       coursePayload := some [] },
     { sourceId := "2", status := .FAILED,
       error := some { sourceId := "2", errorType := "X", message := "m" } },
     { sourceId := "3", status := .PARTIAL, universityPayload := some [],
       coursePayload := some [("name", Value.vStr "c")] },
     { sourceId := "4", status := .SUCCESS, universityPayload := some [],
       coursePayload := some [] }] {} rfl (by decide) rfl rfl

end ApplySrbiau
